import Mathlib

/-!
Shallow embedding of the NLSR-Modified-ML repository slice:

* `src/src/route/load-aware-routing-calculator.cpp` — the load-aware link-cost
  calculator (`calculateLoadAwareCost`, `getRttFactor`, `getLoadFactor`,
  `getStabilityFactor`, `updateRttHistory`).
* `src/src/hello-protocol.cpp` — the Hello protocol handlers
  (`sendHelloInterest`, `processInterest`, `processInterestTimedOut`,
  `onContentValidated`).

Modelling conventions:

* C++ `double` arithmetic is embedded as exact rational arithmetic (`ℚ`).
* `ndn::time` durations/time points are embedded as integer nanosecond counts;
  `ndn::time::duration_cast` to a coarser unit is integer division truncating
  toward zero, exactly as in C++ (`Nat` division for the non-negative RTT
  durations, `Int.tdiv` for time-point differences).
* The per-neighbor mutable state (`m_rttHistory[neighbor]`, the adjacency
  record of one neighbor) is passed explicitly; handlers return the new state
  together with the list of emitted signals/side effects, in emission order.
* `std::deque<double>` history is a `List ℚ`; the lazily-created empty deque of
  `m_rttHistory[neighbor]` coincides with the empty list.
-/

namespace nlsr

/-! ## Load-aware routing calculator (`load-aware-routing-calculator.cpp`) -/

/-- Modelled from the spec: `MAX_RTT_HISTORY` is declared in the missing header
`load-aware-routing-calculator.hpp`; the spec fixes a bounded FIFO of length
`MAX_RTT_HISTORY` and recommends 16.  No claim depends on the particular
value. -/
def MAX_RTT_HISTORY : Nat := 16

/-- Default weight constants of `load-aware-routing-calculator.cpp`
(`DEFAULT_RTT_WEIGHT = 0.3`, `DEFAULT_LOAD_WEIGHT = 0.4`,
`DEFAULT_STABILITY_WEIGHT = 0.3`), which initialize the members
`m_rttWeight`, `m_loadWeight`, `m_stabilityWeight`. -/
def DEFAULT_RTT_WEIGHT : ℚ := 3/10

/-- Default load weight 0.4. -/
def DEFAULT_LOAD_WEIGHT : ℚ := 4/10

/-- Default stability weight 0.3. -/
def DEFAULT_STABILITY_WEIGHT : ℚ := 3/10

/-- RTT threshold constants (milliseconds). -/
def RTT_THRESHOLD_EXCELLENT : ℚ := 10

/-- Good-RTT threshold, 50 ms. -/
def RTT_THRESHOLD_GOOD : ℚ := 50

/-- Fair-RTT threshold, 100 ms. -/
def RTT_THRESHOLD_FAIR : ℚ := 100

/-- Poor-RTT threshold, 200 ms. -/
def RTT_THRESHOLD_POOR : ℚ := 200

/-- `LinkCostManager::LinkMetrics`, declared in a header that is not part of
the slice; field set modelled from the spec (§3, "Link metrics"): `originalCost`
(positive double), optional `currentRtt` (a duration, embedded as non-negative
nanoseconds), optional `timeoutCount`, optional `lastSuccessTime` (a steady
clock time point, embedded as nanoseconds since epoch).  The `neighbor` field
is left implicit because the embedding passes the one relevant neighbor's
history explicitly. -/
structure LinkMetrics where
  originalCost : ℚ
  currentRtt : Option Nat
  timeoutCount : Option Nat
  lastSuccessTime : Option Int
deriving DecidableEq

/-- `ndn::time::duration_cast<ndn::time::milliseconds>(d).count()` for a
non-negative nanosecond duration: truncating integer division by 10^6. -/
def rttMsOf (ns : Nat) : Nat := ns / 1000000

/-- `LoadAwareRoutingCalculator::updateRttHistory`: `push_back` the sample,
then `while (history.size() > MAX_RTT_HISTORY) history.pop_front()`.  The
while loop pops exactly `length - MAX_RTT_HISTORY` elements from the front
when the bound is exceeded, i.e. drops that many leading elements. -/
def updateRttHistory (history : List ℚ) (currentRttMs : ℚ) : List ℚ :=
  let h := history ++ [currentRttMs]
  h.drop (h.length - MAX_RTT_HISTORY)

/-- `LoadAwareRoutingCalculator::getRttFactor`: absent RTT gives 0; otherwise
the truncated millisecond count is compared against the thresholds. -/
def getRttFactor (metrics : LinkMetrics) : ℚ :=
  match metrics.currentRtt with
  | none => 0
  | some ns =>
    let rttMsValue : Nat := rttMsOf ns
    if (rttMsValue : ℚ) ≤ RTT_THRESHOLD_EXCELLENT then 0
    else if (rttMsValue : ℚ) ≤ RTT_THRESHOLD_GOOD then 2/10
    else if (rttMsValue : ℚ) ≤ RTT_THRESHOLD_FAIR then 5/10
    else if (rttMsValue : ℚ) ≤ RTT_THRESHOLD_POOR then 1
    else 2

/-- The statistics part of `LoadAwareRoutingCalculator::getLoadFactor`, on the
(already updated) history of the queried neighbor.  The source computes
`mean`, population standard deviation `stddev = sqrt(variance/n)` and
`variationRate = (mean > 0) ? stddev/mean : 0.0`, then compares
`variationRate` against 0.1, 0.2, 0.5.  To stay in exact rational arithmetic
the comparisons `stddev/mean ≤ t` are embedded as the equivalent
`variance/n ≤ t² · mean²` (both sides non-negative, `sqrt` monotone), which is
faithful for `mean > 0`; for `mean ≤ 0` the source takes the rate to be 0 and
returns the first bucket. -/
def loadFactorOfHistory (history : List ℚ) : ℚ :=
  if history.length < 3 then 0
  else
    let n : ℚ := history.length
    let mean : ℚ := history.sum / n
    let variancePop : ℚ := (history.map (fun rtt => (rtt - mean) * (rtt - mean))).sum / n
    if mean ≤ 0 then 0
    else if variancePop ≤ (1/10) * (1/10) * (mean * mean) then 0
    else if variancePop ≤ (2/10) * (2/10) * (mean * mean) then 3/10
    else if variancePop ≤ (5/10) * (5/10) * (mean * mean) then 7/10
    else 3/2

/-- `LoadAwareRoutingCalculator::getLoadFactor`: first appends `currentRtt`
(when present) to the neighbor's history via `updateRttHistory`, then looks the
history up; a missing or short (< 3 samples) history yields factor 0.  A
missing map entry behaves exactly like the empty list, so the embedding keeps
one `List ℚ`.  Returns the factor together with the updated history. -/
def getLoadFactor (history : List ℚ) (metrics : LinkMetrics) : ℚ × List ℚ :=
  let h := match metrics.currentRtt with
    | some ns => updateRttHistory history ((rttMsOf ns : ℚ))
    | none => history
  (loadFactorOfHistory h, h)

/-- `LoadAwareRoutingCalculator::getStabilityFactor`: 0.2 per recorded
timeout, plus a staleness penalty when more than 60 truncated seconds have
elapsed since `lastSuccessTime`; `now` is the value of
`ndn::time::steady_clock::now()` in nanoseconds. -/
def getStabilityFactor (metrics : LinkMetrics) (now : Int) : ℚ :=
  let factor : ℚ := 0
  let factor : ℚ := match metrics.timeoutCount with
    | some c => factor + (c : ℚ) * (2/10)
    | none => factor
  match metrics.lastSuccessTime with
  | some t =>
    let secondsSinceSuccess : Int := (now - t).tdiv 1000000000
    if 60 < secondsSinceSuccess then
      factor + min 2 ((secondsSinceSuccess : ℚ) / 60 * (1/10))
    else factor
  | none => factor

/-- `LoadAwareRoutingCalculator::calculateLoadAwareCost`: early return on a
non-positive base or original cost; otherwise combine the three factors with
the weights, clamp by `min`/`max` against `3·originalCost` and
`0.5·originalCost`, and append `currentRtt` (when present) to the history a
second time.  Returns the adjusted cost and the final history state. -/
def calculateLoadAwareCost (history : List ℚ) (rttBasedCost : ℚ)
    (metrics : LinkMetrics) (now : Int) : ℚ × List ℚ :=
  if rttBasedCost ≤ 0 ∨ metrics.originalCost ≤ 0 then
    (rttBasedCost, history)
  else
    let rttFactor := getRttFactor metrics
    let loadPair := getLoadFactor history metrics
    let loadFactor := loadPair.1
    let stabilityFactor := getStabilityFactor metrics now
    let adjustmentFactor := DEFAULT_RTT_WEIGHT * rttFactor +
      DEFAULT_LOAD_WEIGHT * loadFactor + DEFAULT_STABILITY_WEIGHT * stabilityFactor
    let adjustedCost := rttBasedCost * (1 + adjustmentFactor)
    let adjustedCost := min adjustedCost (metrics.originalCost * 3)
    let adjustedCost := max adjustedCost (metrics.originalCost * (1/2))
    let finalHistory := match metrics.currentRtt with
      | some ns => updateRttHistory loadPair.2 ((rttMsOf ns : ℚ))
      | none => loadPair.2
    (adjustedCost, finalHistory)

/-! ## Hello protocol (`hello-protocol.cpp`)

The adjacency record of one configured neighbor is modelled explicitly; every
handler is restricted to the neighbor it extracts from the packet name, so the
per-neighbor state machine captures each handler's effect exactly.  NDN names
are component lists; `INFO_COMPONENT` is the literal string. -/

/-- An NDN name as its list of components (URI representation). -/
abbrev NdnName := List String

/-- Component access by negative index: `name.get(-k)` in ndn-cxx, i.e. the
`k`-th component from the end; `none` when the name is too short. -/
def componentFromEnd (name : NdnName) (k : Nat) : Option String :=
  if k ≤ name.length then name.get? (name.length - k) else none

/-- The literal `INFO` name component. -/
def INFO_COMPONENT : String := "INFO"

/-- `Adjacent::Status` restricted to the two values a configured neighbor
takes in this slice. -/
inductive Status where
  | active
  | inactive
deriving DecidableEq

/-- Packet-statistics counter kinds incremented through `hpIncrementSignal`. -/
inductive PacketType where
  | sentHelloInterest
  | rcvHelloInterest
  | sentHelloData
  | rcvHelloData
deriving DecidableEq

/-- Observable side effects of the Hello handlers, in emission order: the
signals `onInterestSent` (with the probe lifetime in seconds, emitted inside
`expressInterest` as the probe is dispatched), `onDataReceived`, `onTimeout`,
`onNeighborStatusChanged`, `onInitialHelloDataValidated`; counter increments;
the single reconvergence call (`scheduleRoutingTableCalculation` under
`HYPERBOLIC_STATE_ON`, otherwise `scheduleAdjLsaBuild`); and the scheduler
call rearming the periodic `sendHelloInterest` with the given delay. -/
inductive Event where
  | interestSent (lifetimeSec : Nat)
  | dataReceived
  | helloTimeout (count : Nat)
  | neighborStatusChanged (s : Status)
  | initialHelloDataValidated
  | pktCounter (t : PacketType)
  | reconvergence
  | scheduleNext (delaySec : Nat)
deriving DecidableEq

/-- Mutable per-neighbor fields of the adjacency record. -/
structure AdjState where
  status : Status
  timedOutCount : Nat
  faceId : Nat
deriving DecidableEq

/-- Configuration parameters the handlers read from `ConfParameter`. -/
structure HelloConf where
  interestRetryNumber : Nat
  interestResendTime : Nat
  infoInterestInterval : Nat
  hyperbolicOn : Bool
deriving DecidableEq

/-- `HelloProtocol::expressInterest` effects: the `onInterestSent` signal is
emitted, the probe is dispatched via the Face with the given lifetime, and
`SENT_HELLO_INTEREST` is incremented. -/
def expressInterestEvents (lifetimeSec : Nat) : List Event :=
  [Event.interestSent lifetimeSec, Event.pktCounter PacketType.sentHelloInterest]

/-- `HelloProtocol::sendHelloInterest` for the given neighbor; `present` is
whether `findAdjacent` succeeds.  An absent neighbor returns immediately; a
present neighbor with a bound face (`faceId ≠ 0`) dispatches the probe with
lifetime `interest_resend_time`; the next periodic `sendHelloInterest` is
scheduled unconditionally afterwards. -/
def sendHelloInterest (conf : HelloConf) (present : Bool) (adj : AdjState) :
    AdjState × List Event :=
  if present = false then (adj, [])
  else
    let evs := if adj.faceId ≠ 0 then expressInterestEvents conf.interestResendTime else []
    (adj, evs ++ [Event.scheduleNext conf.infoInterestInterval])

/-- `HelloProtocol::processInterest` (inbound probe): increment
`RCV_HELLO_INTEREST`; drop when the penultimate component is not `INFO`;
for a known neighbor (`isNbr`), sign and put the reply data
(`SENT_HELLO_DATA`), and when that neighbor is currently `INACTIVE` with a
bound face, immediately express a reactive probe toward it. -/
def processInterest (conf : HelloConf) (adj : AdjState) (interestName : NdnName)
    (isNbr : Bool) : AdjState × List Event :=
  let evs := [Event.pktCounter PacketType.rcvHelloInterest]
  if componentFromEnd interestName 2 ≠ some INFO_COMPONENT then (adj, evs)
  else if isNbr then
    let evs := evs ++ [Event.pktCounter PacketType.sentHelloData]
    if adj.status = Status.inactive then
      if adj.faceId ≠ 0 then
        (adj, evs ++ expressInterestEvents conf.interestResendTime)
      else (adj, evs)
    else (adj, evs)
  else (adj, evs)

/-- `HelloProtocol::processInterestTimedOut`: drop when the penultimate
component is not `INFO`; otherwise increment the timed-out count, emit the
`onTimeout` signal with the new count, and either reissue the probe (count
still below `interest_retry_number`), or — when the neighbor was `ACTIVE` —
mark it `INACTIVE`, emit the status change and make the one reconvergence
call; an already-inactive neighbor gets no further action. -/
def processInterestTimedOut (conf : HelloConf) (adj : AdjState)
    (interestName : NdnName) : AdjState × List Event :=
  if componentFromEnd interestName 2 ≠ some INFO_COMPONENT then (adj, [])
  else
    let adj1 : AdjState := { adj with timedOutCount := adj.timedOutCount + 1 }
    let status := adj1.status
    let infoIntTimedOutCount := adj1.timedOutCount
    let evs := [Event.helloTimeout infoIntTimedOutCount]
    if infoIntTimedOutCount < conf.interestRetryNumber then
      (adj1, evs ++ expressInterestEvents conf.interestResendTime)
    else if status = Status.active then
      ({ adj1 with status := Status.inactive },
       evs ++ [Event.neighborStatusChanged Status.inactive, Event.reconvergence])
    else (adj1, evs)

/-- `HelloProtocol::onContentValidated`: when the antepenultimate component is
`INFO`, record the old status, set the neighbor `ACTIVE` with timed-out count
0, emit `onDataReceived`, and on an actual status change emit
`onNeighborStatusChanged(ACTIVE)`, make the reconvergence call and emit
`onInitialHelloDataValidated`; `RCV_HELLO_DATA` is incremented at the end of
the handler on every path. -/
def onContentValidated (adj : AdjState) (dataName : NdnName) :
    AdjState × List Event :=
  if componentFromEnd dataName 3 = some INFO_COMPONENT then
    let oldStatus := adj.status
    let adj1 : AdjState := { adj with status := Status.active, timedOutCount := 0 }
    let newStatus := adj1.status
    let evs := [Event.dataReceived]
    let evs := if oldStatus ≠ newStatus then
        evs ++ [Event.neighborStatusChanged Status.active, Event.reconvergence,
                Event.initialHelloDataValidated]
      else evs
    (adj1, evs ++ [Event.pktCounter PacketType.rcvHelloData])
  else
    (adj, [Event.pktCounter PacketType.rcvHelloData])

/-- One externally-triggered execution step of the Hello engine concerning the
modelled neighbor: a probe timeout, a validated response, a periodic
`sendHelloInterest` tick, or an inbound probe. -/
inductive HpStep where
  | timeoutArrived (name : NdnName)
  | dataValidated (name : NdnName)
  | periodicSend (present : Bool)
  | inboundProbe (name : NdnName) (isNbr : Bool)

/-- Dispatch one step to the corresponding handler. -/
def hpStep (conf : HelloConf) (adj : AdjState) : HpStep → AdjState × List Event
  | HpStep.timeoutArrived n => processInterestTimedOut conf adj n
  | HpStep.dataValidated n => onContentValidated adj n
  | HpStep.periodicSend p => sendHelloInterest conf p adj
  | HpStep.inboundProbe n b => processInterest conf adj n b

/-- Run a list of steps from a state, concatenating the emitted events. -/
def hpTrace (conf : HelloConf) (adj : AdjState) : List HpStep → AdjState × List Event
  | [] => (adj, [])
  | s :: rest =>
    let r1 := hpStep conf adj s
    let r2 := hpTrace conf r1.1 rest
    (r2.1, r1.2 ++ r2.2)

/-- The subsequence of statuses reported by `NeighborStatusChanged` events. -/
def statusEvents (evs : List Event) : List Status :=
  evs.filterMap fun e => match e with
    | Event.neighborStatusChanged s => some s
    | _ => none

/-- Count of reconvergence calls (`scheduleRoutingTableCalculation` /
`scheduleAdjLsaBuild`) in an event list. -/
def reconvergeCalls (evs : List Event) : Nat :=
  (evs.filterMap fun e => match e with
    | Event.reconvergence => some Unit.unit
    | _ => none).length

/-! ## Shared lemmas -/

theorem updateRttHistory_length_le (h : List ℚ) (x : ℚ) :
    (updateRttHistory h x).length ≤ MAX_RTT_HISTORY := by
  simp only [updateRttHistory, List.length_drop]
  omega

theorem updateRttHistory_suffix (h : List ℚ) (x : ℚ) :
    (updateRttHistory h x).IsSuffix (h ++ [x]) := by
  simp only [updateRttHistory]
  exact List.drop_suffix _ _

theorem updateRttHistory_eq_of_le (h : List ℚ) (x : ℚ)
    (hlen : h.length + 1 ≤ MAX_RTT_HISTORY) :
    updateRttHistory h x = h ++ [x] := by
  simp only [updateRttHistory]
  have hz : (h ++ [x]).length - MAX_RTT_HISTORY = 0 := by
    simp only [List.length_append, List.length_singleton]
    omega
  rw [hz, List.drop_zero]

theorem updateRttHistory_length_of_gt (h : List ℚ) (x : ℚ)
    (hlen : MAX_RTT_HISTORY < h.length + 1) :
    (updateRttHistory h x).length = MAX_RTT_HISTORY := by
  simp only [updateRttHistory, List.length_drop, List.length_append,
    List.length_singleton]
  omega

theorem loadFactorOfHistory_short (l : List ℚ) (h : l.length < 3) :
    loadFactorOfHistory l = 0 := by
  simp only [loadFactorOfHistory, if_pos h]

/-! ## Claims about the cost calculator -/

/-- C1: for every call to the cost calculator with `rttBasedCost > 0` and
`metrics.originalCost > 0`, the returned adjusted cost lies in the closed
interval `[0.5 * originalCost, 3.0 * originalCost]`. -/
theorem c1_cost_clamped (history : List ℚ) (rttBasedCost : ℚ)
    (metrics : LinkMetrics) (now : Int)
    (hr : 0 < rttBasedCost) (ho : 0 < metrics.originalCost) :
    metrics.originalCost * (1/2) ≤
      (calculateLoadAwareCost history rttBasedCost metrics now).1 ∧
    (calculateLoadAwareCost history rttBasedCost metrics now).1 ≤
      metrics.originalCost * 3 := by
  have hcond : ¬(rttBasedCost ≤ 0 ∨ metrics.originalCost ≤ 0) := by
    push_neg
    exact ⟨hr, ho⟩
  simp only [calculateLoadAwareCost, if_neg hcond]
  refine ⟨le_max_right _ _, max_le (le_trans (min_le_right _ _) (by linarith)) (by linarith)⟩

theorem c1_cost_clamped_witness :
    (100 : ℚ) * (1/2) ≤
      (calculateLoadAwareCost [] 10 ⟨100, none, some 0, some 0⟩ 0).1 ∧
    (calculateLoadAwareCost [] 10 ⟨100, none, some 0, some 0⟩ 0).1 ≤ (100 : ℚ) * 3 :=
  c1_cost_clamped [] 10 ⟨100, none, some 0, some 0⟩ 0 (by norm_num) (by norm_num)

/-- C3 counterexample: the claim asserts `f_R = 0.2` for `currentRtt =
10.0001 ms` (10000100 ns), but `duration_cast<milliseconds>` truncates
10.0001 ms to 10 ms, so the source returns the `≤ 10` bucket 0.0. -/
theorem c3_counterexample :
    getRttFactor ⟨100, some 10000100, none, none⟩ = 0 ∧
    getRttFactor ⟨100, some 10000100, none, none⟩ ≠ 2/10 := by
  have hms : rttMsOf 10000100 = 10 := by decide
  have h0 : getRttFactor ⟨100, some 10000100, none, none⟩ = 0 := by
    simp only [getRttFactor, hms, RTT_THRESHOLD_EXCELLENT]
    norm_num
  exact ⟨h0, by rw [h0]; norm_num⟩

/-- C3 amended: `f_R` returns 0.0 at `currentRtt = 10 ms` and also at
10.0001 ms (both truncate to 10 ms); it returns 0.2 exactly when the truncated
millisecond count of `currentRtt` is strictly greater than 10 and at most
50. -/
theorem c3_rtt_factor_buckets :
    getRttFactor ⟨100, some 10000000, none, none⟩ = 0 ∧
    getRttFactor ⟨100, some 10000100, none, none⟩ = 0 ∧
    (∀ (origCost : ℚ) (ns : Nat) (tc : Option Nat) (ls : Option Int),
      10 < rttMsOf ns → rttMsOf ns ≤ 50 →
      getRttFactor ⟨origCost, some ns, tc, ls⟩ = 2/10) := by
  have hms1 : rttMsOf 10000000 = 10 := by decide
  have hms2 : rttMsOf 10000100 = 10 := by decide
  refine ⟨?_, ?_, ?_⟩
  · simp only [getRttFactor, hms1, RTT_THRESHOLD_EXCELLENT]
    norm_num
  · simp only [getRttFactor, hms2, RTT_THRESHOLD_EXCELLENT]
    norm_num
  · intro origCost ns tc ls h1 h2
    simp only [getRttFactor, RTT_THRESHOLD_EXCELLENT, RTT_THRESHOLD_GOOD]
    rw [if_neg (by push_neg; exact_mod_cast h1), if_pos (by exact_mod_cast h2)]

theorem c3_rtt_factor_buckets_witness :
    getRttFactor ⟨100, some 20000000, none, none⟩ = 2/10 :=
  c3_rtt_factor_buckets.2.2 100 20000000 none none (by decide) (by decide)

/-- C9: after `updateRttHistory` the history length is at most
`MAX_RTT_HISTORY`; the result is a suffix of the old history with the new
sample appended (so overflow drops only the oldest samples from the front and
keeps the most recent in order); no sample is dropped while the bound is
respected, and on overflow the length is exactly the bound. -/
theorem c9_history_bounded (history : List ℚ) (x : ℚ) :
    (updateRttHistory history x).length ≤ MAX_RTT_HISTORY ∧
    (updateRttHistory history x).IsSuffix (history ++ [x]) ∧
    (history.length + 1 ≤ MAX_RTT_HISTORY →
      updateRttHistory history x = history ++ [x]) ∧
    (MAX_RTT_HISTORY < history.length + 1 →
      (updateRttHistory history x).length = MAX_RTT_HISTORY) :=
  ⟨updateRttHistory_length_le history x, updateRttHistory_suffix history x,
   updateRttHistory_eq_of_le history x, updateRttHistory_length_of_gt history x⟩

theorem c9_history_bounded_witness :
    (updateRttHistory (List.replicate 16 (0:ℚ)) 1).length = MAX_RTT_HISTORY :=
  (c9_history_bounded (List.replicate 16 (0:ℚ)) 1).2.2.2 (by decide)

/-- C10: when both costs are positive and `currentRtt` is present, one call to
`calculateLoadAwareCost` routes the millisecond value of `currentRtt` through
`updateRttHistory` twice — once inside `getLoadFactor` and once after the
clamp — so the final history is the old history with two identical samples
appended, truncated from the front to the `MAX_RTT_HISTORY` cap. -/
theorem c10_rtt_appended_twice (history : List ℚ) (rttBasedCost : ℚ)
    (metrics : LinkMetrics) (now : Int) (ns : Nat)
    (hr : 0 < rttBasedCost) (ho : 0 < metrics.originalCost)
    (hrtt : metrics.currentRtt = some ns) :
    (calculateLoadAwareCost history rttBasedCost metrics now).2 =
      updateRttHistory (updateRttHistory history ((rttMsOf ns : ℚ)))
        ((rttMsOf ns : ℚ)) ∧
    ((calculateLoadAwareCost history rttBasedCost metrics now).2).IsSuffix
      (history ++ [((rttMsOf ns : ℚ)), ((rttMsOf ns : ℚ))]) ∧
    (history.length + 2 ≤ MAX_RTT_HISTORY →
      (calculateLoadAwareCost history rttBasedCost metrics now).2 =
        history ++ [((rttMsOf ns : ℚ)), ((rttMsOf ns : ℚ))]) ∧
    ((calculateLoadAwareCost history rttBasedCost metrics now).2).length ≤
      MAX_RTT_HISTORY := by
  have hcond : ¬(rttBasedCost ≤ 0 ∨ metrics.originalCost ≤ 0) := by
    push_neg
    exact ⟨hr, ho⟩
  have hmain : (calculateLoadAwareCost history rttBasedCost metrics now).2 =
      updateRttHistory (updateRttHistory history ((rttMsOf ns : ℚ)))
        ((rttMsOf ns : ℚ)) := by
    simp only [calculateLoadAwareCost, if_neg hcond, getLoadFactor, hrtt]
  refine ⟨hmain, ?_, ?_, ?_⟩
  · rw [hmain]
    have h2 := updateRttHistory_suffix
      (updateRttHistory history ((rttMsOf ns : ℚ))) ((rttMsOf ns : ℚ))
    obtain ⟨t, ht⟩ := updateRttHistory_suffix history ((rttMsOf ns : ℚ))
    refine h2.trans ⟨t, ?_⟩
    rw [← List.append_assoc, ht, List.append_assoc]
    simp
  · intro hlen
    have e1 : updateRttHistory history ((rttMsOf ns : ℚ)) =
        history ++ [((rttMsOf ns : ℚ))] :=
      updateRttHistory_eq_of_le _ _ (by omega)
    have hlen2 : (history ++ [((rttMsOf ns : ℚ))]).length + 1 ≤ MAX_RTT_HISTORY := by
      simp only [List.length_append, List.length_singleton]
      omega
    have e2 := updateRttHistory_eq_of_le (history ++ [((rttMsOf ns : ℚ))])
      ((rttMsOf ns : ℚ)) hlen2
    rw [hmain, e1, e2, List.append_assoc]
    simp
  · rw [hmain]
    exact updateRttHistory_length_le _ _

theorem c10_rtt_appended_twice_witness :
    (calculateLoadAwareCost [] 100 ⟨100, some 60000000, some 0, none⟩ 0).2 =
      [] ++ [((rttMsOf 60000000 : ℚ)), ((rttMsOf 60000000 : ℚ))] :=
  (c10_rtt_appended_twice [] 100 ⟨100, some 60000000, some 0, none⟩ 0 60000000
    (by norm_num) (by norm_num) rfl).2.2.1 (by decide)

/-- C5 counterexample: at `rttBasedCost = 10`, `originalCost = 100`, empty
history, `timeoutCount = 0` and a success at `now` itself, the claimed value
`rttBasedCost · (1 + w_R·f_R) = 10` is below the lower clamp
`0.5 · originalCost = 50`, and the source returns the clamped 50. -/
theorem c5_counterexample :
    (calculateLoadAwareCost [] 10 ⟨100, none, some 0, some 0⟩ 0).1 = 50 ∧
    (10 : ℚ) * (1 + DEFAULT_RTT_WEIGHT * getRttFactor ⟨100, none, some 0, some 0⟩) = 10 ∧
    (50 : ℚ) ≠ 10 := by
  have hcond : ¬((10:ℚ) ≤ 0 ∨ (LinkMetrics.mk 100 none (some 0) (some 0)).originalCost ≤ 0) := by
    push_neg
    norm_num
  have hstab : getStabilityFactor ⟨100, none, some 0, some 0⟩ 0 = 0 := by
    simp only [getStabilityFactor]
    norm_num
  have hload : (getLoadFactor [] ⟨100, none, some 0, some 0⟩).1 = 0 := by
    simp only [getLoadFactor]
    exact loadFactorOfHistory_short [] (by decide)
  have hrttf : getRttFactor ⟨100, none, some 0, some 0⟩ = 0 := by
    simp only [getRttFactor]
  refine ⟨?_, ?_, by norm_num⟩
  · simp only [calculateLoadAwareCost, if_neg hcond, hload, hstab, hrttf,
      DEFAULT_RTT_WEIGHT, DEFAULT_LOAD_WEIGHT, DEFAULT_STABILITY_WEIGHT]
    norm_num
  · rw [hrttf]
    norm_num

/-- C5 amended: under positive costs, zero recorded timeout count and a last
success at most 60 s before `now`, and with the neighbor's RTT history still
shorter than 3 samples *after* the in-call append of `currentRtt` (when
present), the returned cost is `rttBasedCost · (1 + w_R · f_R(currentRtt))`
clamped into `[0.5·originalCost, 3.0·originalCost]`. -/
theorem c5_small_history_cost (history : List ℚ) (rttBasedCost : ℚ)
    (metrics : LinkMetrics) (now : Int) (t : Int)
    (hr : 0 < rttBasedCost) (ho : 0 < metrics.originalCost)
    (htc : metrics.timeoutCount = some 0)
    (hls : metrics.lastSuccessTime = some t)
    (h0 : 0 ≤ now - t) (h60 : now - t ≤ 60 * 1000000000)
    (hlen : history.length + (if metrics.currentRtt.isSome then 1 else 0) < 3) :
    (calculateLoadAwareCost history rttBasedCost metrics now).1 =
      max (min (rttBasedCost * (1 + DEFAULT_RTT_WEIGHT * getRttFactor metrics))
        (metrics.originalCost * 3)) (metrics.originalCost * (1/2)) := by
  have hcond : ¬(rttBasedCost ≤ 0 ∨ metrics.originalCost ≤ 0) := by
    push_neg
    exact ⟨hr, ho⟩
  have hsec : (now - t).tdiv 1000000000 ≤ 60 := by
    rw [Int.tdiv_eq_ediv h0 (by norm_num)]
    calc (now - t) / 1000000000
        ≤ (60 * 1000000000) / 1000000000 := Int.ediv_le_ediv (by norm_num) h60
      _ = 60 := Int.mul_ediv_cancel 60 (by norm_num)
  have hstab : getStabilityFactor metrics now = 0 := by
    simp only [getStabilityFactor, htc, hls]
    rw [if_neg (not_lt.mpr hsec)]
    norm_num
  have hload : (getLoadFactor history metrics).1 = 0 := by
    rcases hc : metrics.currentRtt with _ | ns
    · simp only [getLoadFactor, hc]
      refine loadFactorOfHistory_short history ?_
      rw [hc] at hlen
      simpa using hlen
    · rw [hc] at hlen
      simp only [Option.isSome_some, if_pos] at hlen
      have heq : updateRttHistory history ((rttMsOf ns : ℚ)) =
          history ++ [((rttMsOf ns : ℚ))] := by
        refine updateRttHistory_eq_of_le history _ ?_
        simp only [MAX_RTT_HISTORY]
        omega
      simp only [getLoadFactor, hc, heq]
      refine loadFactorOfHistory_short _ ?_
      simp only [List.length_append, List.length_singleton]
      omega
  simp only [calculateLoadAwareCost, if_neg hcond, hload, hstab]
  have harith : rttBasedCost * (1 + (DEFAULT_RTT_WEIGHT * getRttFactor metrics +
      DEFAULT_LOAD_WEIGHT * 0 + DEFAULT_STABILITY_WEIGHT * 0)) =
      rttBasedCost * (1 + DEFAULT_RTT_WEIGHT * getRttFactor metrics) := by
    ring
  rw [harith]

theorem c5_small_history_cost_witness :
    (calculateLoadAwareCost [] 10 ⟨100, none, some 0, some 0⟩ 0).1 =
      max (min ((10:ℚ) * (1 + DEFAULT_RTT_WEIGHT * getRttFactor ⟨100, none, some 0, some 0⟩))
        ((100:ℚ) * 3)) ((100:ℚ) * (1/2)) :=
  c5_small_history_cost [] 10 ⟨100, none, some 0, some 0⟩ 0 0
    (by norm_num) (by norm_num) rfl rfl (by norm_num) (by norm_num) (by decide)

/-! ## Claims about the Hello protocol -/

/-- C4 counterexample: for a validated data packet whose antepenultimate name
component is not `INFO`, the handler leaves the adjacency untouched and emits
no signal, but it still increments `RCV_HELLO_DATA` — the increment sits after
the `INFO` check in `onContentValidated` — contradicting the claim that no
packet counter is incremented. -/
theorem c4_counterexample :
    componentFromEnd ["n", "NLSR", "WRONG", "blob", "v"] 3 ≠ some INFO_COMPONENT ∧
    (onContentValidated ⟨Status.inactive, 0, 7⟩ ["n", "NLSR", "WRONG", "blob", "v"]).1 =
      ⟨Status.inactive, 0, 7⟩ ∧
    Event.pktCounter PacketType.rcvHelloData ∈
      (onContentValidated ⟨Status.inactive, 0, 7⟩ ["n", "NLSR", "WRONG", "blob", "v"]).2 := by
  refine ⟨by decide, by decide, by decide⟩

/-- C4 amended: for every validated response whose antepenultimate component
is not `INFO`, the handler changes no adjacency state and emits no signal, but
`RCV_HELLO_DATA` is still incremented (it is the only effect). -/
theorem c4_malformed_data_drop (adj : AdjState) (dataName : NdnName)
    (h : componentFromEnd dataName 3 ≠ some INFO_COMPONENT) :
    (onContentValidated adj dataName).1 = adj ∧
    (onContentValidated adj dataName).2 =
      [Event.pktCounter PacketType.rcvHelloData] := by
  simp [onContentValidated, if_neg h]

theorem c4_malformed_data_drop_witness :
    (onContentValidated ⟨Status.active, 2, 7⟩ ["a", "b", "c", "d"]).1 =
      ⟨Status.active, 2, 7⟩ ∧
    (onContentValidated ⟨Status.active, 2, 7⟩ ["a", "b", "c", "d"]).2 =
      [Event.pktCounter PacketType.rcvHelloData] :=
  c4_malformed_data_drop ⟨Status.active, 2, 7⟩ ["a", "b", "c", "d"] (by decide)

/-- C7: whenever a step of the Hello engine emits `DataReceived` for the
neighbor, the neighbor's post-state has `timed_out_count = 0` and status
`ACTIVE` (the handler performs both writes before emitting the signal and
never undoes them). -/
theorem c7_data_received_resets (conf : HelloConf) (adj : AdjState) (s : HpStep)
    (h : Event.dataReceived ∈ (hpStep conf adj s).2) :
    (hpStep conf adj s).1.timedOutCount = 0 ∧
    (hpStep conf adj s).1.status = Status.active := by
  cases s with
  | timeoutArrived n =>
    exfalso
    simp only [hpStep, processInterestTimedOut, expressInterestEvents] at h
    split_ifs at h <;> simp_all
  | dataValidated n =>
    simp only [hpStep, onContentValidated] at h ⊢
    split_ifs at h ⊢ <;> simp_all
  | periodicSend p =>
    exfalso
    simp only [hpStep, sendHelloInterest, expressInterestEvents] at h
    split_ifs at h <;> simp_all
  | inboundProbe n b =>
    exfalso
    simp only [hpStep, processInterest, expressInterestEvents] at h
    split_ifs at h <;> simp_all

theorem c7_data_received_resets_witness :
    (hpStep ⟨3, 15, 60, false⟩ ⟨Status.inactive, 2, 7⟩
      (HpStep.dataValidated ["n", "NLSR", "INFO", "blob", "v1"])).1.timedOutCount = 0 ∧
    (hpStep ⟨3, 15, 60, false⟩ ⟨Status.inactive, 2, 7⟩
      (HpStep.dataValidated ["n", "NLSR", "INFO", "blob", "v1"])).1.status = Status.active :=
  c7_data_received_resets ⟨3, 15, 60, false⟩ ⟨Status.inactive, 2, 7⟩
    (HpStep.dataValidated ["n", "NLSR", "INFO", "blob", "v1"]) (by decide)

/-- C8: in `sendHelloInterest` for a neighbor present in the adjacency list, a
probe is dispatched iff the adjacency's `face_id` is nonzero, and the next
periodic `sendHelloInterest` is scheduled `info_interest_interval` seconds
later regardless. -/
theorem c8_send_probe (conf : HelloConf) (adj : AdjState) (present : Bool)
    (hp : present = true) :
    (Event.interestSent conf.interestResendTime ∈
        (sendHelloInterest conf present adj).2 ↔ adj.faceId ≠ 0) ∧
    Event.scheduleNext conf.infoInterestInterval ∈
      (sendHelloInterest conf present adj).2 := by
  subst hp
  simp only [sendHelloInterest, expressInterestEvents]
  by_cases hf : adj.faceId ≠ 0 <;> simp [hf]

theorem c8_send_probe_witness :
    (Event.interestSent 15 ∈
        (sendHelloInterest ⟨3, 15, 60, false⟩ true ⟨Status.inactive, 0, 7⟩).2 ↔
      (7 : Nat) ≠ 0) ∧
    Event.scheduleNext 60 ∈
      (sendHelloInterest ⟨3, 15, 60, false⟩ true ⟨Status.inactive, 0, 7⟩).2 :=
  c8_send_probe ⟨3, 15, 60, false⟩ ⟨Status.inactive, 0, 7⟩ true rfl

theorem statusEvents_append (a b : List Event) :
    statusEvents (a ++ b) = statusEvents a ++ statusEvents b := by
  simp [statusEvents, List.filterMap_append]

theorem reconvergeCalls_append (a b : List Event) :
    reconvergeCalls (a ++ b) = reconvergeCalls a + reconvergeCalls b := by
  simp [reconvergeCalls, List.filterMap_append]

theorem hpStep_statusEvents (conf : HelloConf) (adj : AdjState) (s : HpStep) :
    (statusEvents (hpStep conf adj s).2 = [] ∧
      (hpStep conf adj s).1.status = adj.status) ∨
    (statusEvents (hpStep conf adj s).2 = [(hpStep conf adj s).1.status] ∧
      (hpStep conf adj s).1.status ≠ adj.status) := by
  cases s with
  | timeoutArrived n =>
    simp only [hpStep, processInterestTimedOut, expressInterestEvents]
    split_ifs with h1 h2 h3
    · left
      simp [statusEvents]
    · left
      simp [statusEvents]
    · right
      simp_all [statusEvents]
    · left
      simp [statusEvents]
  | dataValidated n =>
    simp only [hpStep, onContentValidated]
    split_ifs with h1 h2
    · right
      refine ⟨by simp_all [statusEvents], fun hEq => h2 hEq.symm⟩
    · left
      simp_all [statusEvents]
    · left
      simp [statusEvents]
  | periodicSend p =>
    left
    simp only [hpStep, sendHelloInterest, expressInterestEvents]
    split_ifs <;> simp [statusEvents]
  | inboundProbe n b =>
    left
    simp only [hpStep, processInterest, expressInterestEvents]
    split_ifs <;> simp [statusEvents]

theorem hpTrace_status_invariant (conf : HelloConf) :
    ∀ (steps : List HpStep) (adj : AdjState),
      List.Chain' (fun a b => a ≠ b) (statusEvents (hpTrace conf adj steps).2) ∧
      ∀ s, (statusEvents (hpTrace conf adj steps).2).head? = some s →
        s ≠ adj.status := by
  intro steps
  induction steps with
  | nil =>
    intro adj
    refine ⟨by simp [hpTrace, statusEvents], ?_⟩
    intro s hs
    simp [hpTrace, statusEvents] at hs
  | cons st rest ih =>
    intro adj
    have hsplit : statusEvents (hpTrace conf adj (st :: rest)).2 =
        statusEvents (hpStep conf adj st).2 ++
          statusEvents (hpTrace conf (hpStep conf adj st).1 rest).2 := by
      simp only [hpTrace]
      exact statusEvents_append _ _
    rcases hpStep_statusEvents conf adj st with ⟨he, hst⟩ | ⟨he, hst⟩
    · rw [hsplit, he, List.nil_append]
      refine ⟨(ih (hpStep conf adj st).1).1, ?_⟩
      intro s hs
      rw [← hst]
      exact (ih (hpStep conf adj st).1).2 s hs
    · rw [hsplit, he, List.singleton_append]
      constructor
      · rw [List.chain'_cons']
        refine ⟨?_, (ih (hpStep conf adj st).1).1⟩
        intro y hy
        exact Ne.symm ((ih (hpStep conf adj st).1).2 y hy)
      · intro s hs
        simp only [List.head?_cons, Option.some.injEq] at hs
        exact hs ▸ hst

/-- C6: along every execution trace of the Hello engine, the statuses reported
by the `NeighborStatusChanged` events for the neighbor strictly alternate — no
two consecutive events report the same status (each handler emits a status
change only when it actually flips the stored status). -/
theorem c6_status_alternation (conf : HelloConf) (adj : AdjState)
    (steps : List HpStep) :
    List.Chain' (fun a b => a ≠ b)
      (statusEvents (hpTrace conf adj steps).2) :=
  (hpTrace_status_invariant conf steps adj).1

theorem processTimeout_reissue (conf : HelloConf) (adj : AdjState)
    (name : NdnName) (hn : componentFromEnd name 2 = some INFO_COMPONENT)
    (hlt : adj.timedOutCount + 1 < conf.interestRetryNumber) :
    processInterestTimedOut conf adj name =
      ({ adj with timedOutCount := adj.timedOutCount + 1 },
       [Event.helloTimeout (adj.timedOutCount + 1)] ++
         expressInterestEvents conf.interestResendTime) := by
  simp only [processInterestTimedOut, hn, ne_eq, not_true_eq_false, if_false]
  rw [if_pos hlt]

theorem processTimeout_giveUp (conf : HelloConf) (adj : AdjState)
    (name : NdnName) (hn : componentFromEnd name 2 = some INFO_COMPONENT)
    (hge : ¬(adj.timedOutCount + 1 < conf.interestRetryNumber))
    (hact : adj.status = Status.active) :
    processInterestTimedOut conf adj name =
      (⟨Status.inactive, adj.timedOutCount + 1, adj.faceId⟩,
       [Event.helloTimeout (adj.timedOutCount + 1),
        Event.neighborStatusChanged Status.inactive, Event.reconvergence]) := by
  simp only [processInterestTimedOut, hn, ne_eq, not_true_eq_false, if_false]
  rw [if_neg hge, if_pos hact]
  rfl

theorem timeoutRun (conf : HelloConf) (name : NdnName)
    (hn : componentFromEnd name 2 = some INFO_COMPONENT) :
    ∀ (j : Nat) (adj : AdjState), 1 ≤ j → adj.status = Status.active →
      adj.timedOutCount + j = conf.interestRetryNumber →
      (hpTrace conf adj (List.replicate j (HpStep.timeoutArrived name))).1.status =
        Status.inactive ∧
      statusEvents (hpTrace conf adj
        (List.replicate j (HpStep.timeoutArrived name))).2 = [Status.inactive] ∧
      reconvergeCalls (hpTrace conf adj
        (List.replicate j (HpStep.timeoutArrived name))).2 = 1 := by
  intro j
  induction j with
  | zero =>
    intro adj h1 _ _
    exact absurd h1 (by norm_num)
  | succ k ih =>
    intro adj h1 hact hsum
    rw [List.replicate_succ]
    rcases Nat.eq_zero_or_pos k with hk | hk
    · subst hk
      have hge : ¬(adj.timedOutCount + 1 < conf.interestRetryNumber) := by omega
      simp only [hpTrace, hpStep, processTimeout_giveUp conf adj name hn hge hact]
      refine ⟨by simp, by simp [statusEvents], by simp [reconvergeCalls]⟩
    · have hlt : adj.timedOutCount + 1 < conf.interestRetryNumber := by omega
      simp only [hpTrace, hpStep, processTimeout_reissue conf adj name hn hlt]
      have hrec := ih { adj with timedOutCount := adj.timedOutCount + 1 }
        hk hact (by simp; omega)
      refine ⟨hrec.1, ?_, ?_⟩
      · rw [statusEvents_append, hrec.2.1]
        simp [statusEvents, expressInterestEvents]
      · rw [reconvergeCalls_append, hrec.2.2]
        simp [reconvergeCalls, expressInterestEvents]

/-- C2: starting from an `ACTIVE` neighbor with timed-out count 0, a run of
exactly `retry_limit` consecutive timeouts (no intervening validated response)
ends with the status `INACTIVE`, emits exactly one
`NeighborStatusChanged(INACTIVE)` event and exactly one reconvergence call;
and every individual timeout whose incremented count is still below
`retry_limit` reissues the probe with the same lifetime
(`interest_resend_time`) and changes no status. -/
theorem c2_retry_timeouts (conf : HelloConf) (name : NdnName) (adj : AdjState)
    (hn : componentFromEnd name 2 = some INFO_COMPONENT)
    (hact : adj.status = Status.active) (hcnt : adj.timedOutCount = 0)
    (hretry : 1 ≤ conf.interestRetryNumber) :
    ((hpTrace conf adj (List.replicate conf.interestRetryNumber
        (HpStep.timeoutArrived name))).1.status = Status.inactive ∧
     statusEvents (hpTrace conf adj (List.replicate conf.interestRetryNumber
        (HpStep.timeoutArrived name))).2 = [Status.inactive] ∧
     reconvergeCalls (hpTrace conf adj (List.replicate conf.interestRetryNumber
        (HpStep.timeoutArrived name))).2 = 1) ∧
    (∀ (adjAny : AdjState),
      adjAny.timedOutCount + 1 < conf.interestRetryNumber →
      (processInterestTimedOut conf adjAny name).1.status = adjAny.status ∧
      (processInterestTimedOut conf adjAny name).2 =
        [Event.helloTimeout (adjAny.timedOutCount + 1),
         Event.interestSent conf.interestResendTime,
         Event.pktCounter PacketType.sentHelloInterest]) := by
  constructor
  · exact timeoutRun conf name hn conf.interestRetryNumber adj hretry hact (by omega)
  · intro adjAny hlt
    simp [processTimeout_reissue conf adjAny name hn hlt, expressInterestEvents]

theorem c2_retry_timeouts_witness :
    (hpTrace ⟨3, 15, 60, false⟩ ⟨Status.active, 0, 7⟩ (List.replicate 3
        (HpStep.timeoutArrived ["n", "NLSR", "INFO", "blob"]))).1.status =
      Status.inactive ∧
    (processInterestTimedOut ⟨3, 15, 60, false⟩ ⟨Status.active, 1, 7⟩
        ["n", "NLSR", "INFO", "blob"]).1.status = Status.active :=
  ⟨(c2_retry_timeouts ⟨3, 15, 60, false⟩ ["n", "NLSR", "INFO", "blob"]
      ⟨Status.active, 0, 7⟩ (by decide) rfl rfl (by norm_num)).1.1,
   ((c2_retry_timeouts ⟨3, 15, 60, false⟩ ["n", "NLSR", "INFO", "blob"]
      ⟨Status.active, 0, 7⟩ (by decide) rfl rfl (by norm_num)).2
      ⟨Status.active, 1, 7⟩ (by norm_num)).1⟩

end nlsr
